import Mathlib

/-!
Verification of the PaperVista backend (`backend/main.py`).

The development shallowly embeds the parts of the program that the
specification's claims are about:

* `json_loads` — Python's strict `json.loads` on the subset of behaviour the
  program exercises (JSON values are modelled by `JVal`; numbers keep their
  source lexeme so no floating-point semantics is needed);
* `clean_and_parse_json` — the sanitizer, with each regex substitution of the
  source translated into an explicit character-list pass;
* `generate_with_fallback` — the model-fallback invoker, with the external
  generation call abstracted as an environment `String → Outcome` and the
  sequence of invoked candidates returned as an explicit trace;
* `buildExam` — the two-phase pipeline of `generate_questions`, with the
  per-question Phase-2 invoker results abstracted as an oracle
  `Nat → Nat → Option (List Char)` (question index, retry index);
* `examParams` and `handle_pipeline_error` — the request handler's exam-type
  lookup and the HTTP error mapping.

Strings are processed as `List Char`; `isPySpace` is Python's ASCII `\s`.
-/

/-- Python's whitespace class for `\s` and `str.strip()` (ASCII part). -/
def isPySpace (c : Char) : Bool :=
  c = ' ' || c = '\t' || c = '\n' || c = '\r' || c = '\x0b' || c = '\x0c'

/-- Python `str.strip()` on a character list. -/
def pyStrip (s : List Char) : List Char :=
  ((s.dropWhile isPySpace).reverse.dropWhile isPySpace).reverse

/-- Python `str.split(sep)` for a one-character separator: splitting the empty
string yields `[[]]`, so the result is never empty. -/
def pySplit (sep : Char) : List Char → List (List Char)
  | [] => [[]]
  | c :: rest =>
    if c = sep then [] :: pySplit sep rest
    else
      match pySplit sep rest with
      | [] => [[c]]
      | h :: t => (c :: h) :: t

/-- Python `needle in hay` on character lists. -/
def containsSub (hay needle : List Char) : Bool :=
  (List.range (hay.length + 1)).any (fun i => needle.isPrefixOf (hay.drop i))

/-- Python `needle in hay` on strings. -/
def strContains (hay needle : String) : Bool :=
  containsSub hay.data needle.data

/-- Python `str.lower()` (ASCII part). -/
def pyLower (s : String) : String :=
  String.mk (s.data.map Char.toLower)

/-- Decimal rendering of a natural number, as Python `str(int)` produces. -/
def natLex (n : Nat) : List Char :=
  Nat.toDigits 10 n

/-- Value of a list of decimal digits. -/
def digitsToNat (ds : List Char) : Nat :=
  ds.foldl (fun acc c => acc * 10 + (c.toNat - 48)) 0

/-- The integer denoted by a JSON number lexeme, when the lexeme is an integer
literal (Python `json` turns such lexemes into `int`, everything else into
`float`). -/
def lexToInt? (lex : List Char) : Option Int :=
  match lex with
  | '-' :: ds =>
    if !ds.isEmpty && ds.all Char.isDigit then some (-(digitsToNat ds : Int)) else none
  | ds =>
    if !ds.isEmpty && ds.all Char.isDigit then some ((digitsToNat ds : Int)) else none

/-- Python `str(int)`. -/
def intLex (i : Int) : List Char :=
  if i < 0 then '-' :: natLex i.natAbs else natLex i.natAbs

/-- JSON values as Python's `json.loads` produces them.  A number keeps the
lexeme it was written with (integer lexemes denote Python `int`s); an object
is the insertion-ordered key/value list of the Python `dict`. -/
inductive JVal where
  | null
  | bool (b : Bool)
  | num (lex : List Char)
  | str (s : List Char)
  | arr (elems : List JVal)
  | obj (fields : List (List Char × JVal))

/-- Python `dict` assignment `d[k] = v`: replace in place if the key exists,
else append.  `json.loads` also builds objects this way, so duplicate keys
keep the last value. -/
def dictSet (fields : List (List Char × JVal)) (k : List Char) (v : JVal) :
    List (List Char × JVal) :=
  match fields with
  | [] => [(k, v)]
  | (k', v') :: rest => if k' = k then (k', v) :: rest else (k', v') :: dictSet rest k v

/-- Python `d.get(k)` / `k in d` on the modelled `dict`. -/
def lookupKey (fields : List (List Char × JVal)) (k : List Char) : Option JVal :=
  match fields with
  | [] => none
  | (k', v) :: rest => if k' = k then some v else lookupKey rest k

/-- JSON whitespace as accepted by Python's `json` scanner. -/
def isJsonWs (c : Char) : Bool :=
  c = ' ' || c = '\t' || c = '\n' || c = '\r'

/-- Skip JSON whitespace. -/
def skipWs (s : List Char) : List Char :=
  s.dropWhile isJsonWs

/-- Value of one hexadecimal digit. -/
def hexVal? (c : Char) : Option Nat :=
  if '0' ≤ c ∧ c ≤ '9' then some (c.toNat - 48)
  else if 'a' ≤ c ∧ c ≤ 'f' then some (c.toNat - 87)
  else if 'A' ≤ c ∧ c ≤ 'F' then some (c.toNat - 55)
  else none

/-- Decode one JSON string escape (the part after the backslash). -/
def parseEscape : List Char → Option (Char × List Char)
  | '"' :: r => some ('"', r)
  | '\\' :: r => some ('\\', r)
  | '/' :: r => some ('/', r)
  | 'b' :: r => some (Char.ofNat 8, r)
  | 'f' :: r => some (Char.ofNat 12, r)
  | 'n' :: r => some ('\n', r)
  | 'r' :: r => some ('\r', r)
  | 't' :: r => some ('\t', r)
  | 'u' :: a :: b :: c :: d :: r =>
    match hexVal? a, hexVal? b, hexVal? c, hexVal? d with
    | some x, some y, some z, some w => some (Char.ofNat (x * 4096 + y * 256 + z * 16 + w), r)
    | _, _, _, _ => none
  | _ => none

/-- Parse the body of a JSON string literal (the opening quote has been
consumed); strict mode rejects raw control characters. -/
def parseJStr : Nat → List Char → Option (List Char × List Char)
  | 0, _ => none
  | _ + 1, [] => none
  | _ + 1, '"' :: rest => some ([], rest)
  | fuel + 1, '\\' :: rest =>
    match parseEscape rest with
    | some (c, rest2) => (parseJStr fuel rest2).map (fun p => (c :: p.1, p.2))
    | none => none
  | fuel + 1, c :: rest =>
    if c.toNat < 32 then none
    else (parseJStr fuel rest).map (fun p => (c :: p.1, p.2))

/-- Split off a run of decimal digits. -/
def takeDigits (s : List Char) : List Char × List Char :=
  (s.takeWhile Char.isDigit, s.dropWhile Char.isDigit)

/-- Integer part of a JSON number: `0`, or a nonzero digit followed by digits. -/
def parseIntPart : List Char → Option (List Char × List Char)
  | '0' :: rest => some (['0'], rest)
  | c :: rest =>
    if c.isDigit then
      let p := takeDigits rest
      some (c :: p.1, p.2)
    else none
  | [] => none

/-- Optional fractional part `.digits` of a JSON number. -/
def parseFracPart (s : List Char) : Option (List Char × List Char) :=
  match s with
  | '.' :: rest =>
    let p := takeDigits rest
    if p.1.isEmpty then none else some ('.' :: p.1, p.2)
  | _ => some ([], s)

/-- Optional exponent part `[eE][+-]?digits` of a JSON number. -/
def parseExpPart (s : List Char) : Option (List Char × List Char) :=
  match s with
  | c :: rest =>
    if c = 'e' ∨ c = 'E' then
      let q : List Char × List Char :=
        match rest with
        | '+' :: r => (['+'], r)
        | '-' :: r => (['-'], r)
        | r => ([], r)
      let p := takeDigits q.2
      if p.1.isEmpty then none else some (c :: q.1 ++ p.1, p.2)
    else some ([], s)
  | [] => some ([], [])

/-- Parse a JSON number token, returning its lexeme. -/
def parseNum (s : List Char) : Option (List Char × List Char) :=
  let q : List Char × List Char :=
    match s with
    | '-' :: r => (['-'], r)
    | r => ([], r)
  match parseIntPart q.2 with
  | none => none
  | some (ip, r1) =>
    match parseFracPart r1 with
    | none => none
    | some (fp, r2) =>
      match parseExpPart r2 with
      | none => none
      | some (ep, r3) => some (q.1 ++ ip ++ fp ++ ep, r3)

mutual

/-- Parse one JSON value (Python `json` scanner, including the `NaN`,
`Infinity` and `-Infinity` constants Python accepts by default). -/
def parseVal : Nat → List Char → Option (JVal × List Char)
  | 0, _ => none
  | fuel + 1, s0 =>
    let s := skipWs s0
    match s with
    | '"' :: rest => (parseJStr (rest.length + 1) rest).map (fun p => (.str p.1, p.2))
    | '{' :: rest => parseObjStart fuel rest
    | '[' :: rest => parseArrStart fuel rest
    | _ =>
      if ("true".data).isPrefixOf s then some (.bool true, s.drop 4)
      else if ("false".data).isPrefixOf s then some (.bool false, s.drop 5)
      else if ("null".data).isPrefixOf s then some (.null, s.drop 4)
      else if ("NaN".data).isPrefixOf s then some (.num "NaN".data, s.drop 3)
      else if ("Infinity".data).isPrefixOf s then some (.num "Infinity".data, s.drop 8)
      else if ("-Infinity".data).isPrefixOf s then some (.num "-Infinity".data, s.drop 9)
      else (parseNum s).map (fun p => (.num p.1, p.2))

/-- Parse the inside of an object (the `{` has been consumed). -/
def parseObjStart : Nat → List Char → Option (JVal × List Char)
  | 0, _ => none
  | fuel + 1, s0 =>
    let s := skipWs s0
    match s with
    | '}' :: rest => some (.obj [], rest)
    | _ => parseMembers fuel s []

/-- Parse the non-empty member list of an object. -/
def parseMembers : Nat → List Char → List (List Char × JVal) →
    Option (JVal × List Char)
  | 0, _, _ => none
  | fuel + 1, s0, acc =>
    let s := skipWs s0
    match s with
    | '"' :: rest =>
      match parseJStr (rest.length + 1) rest with
      | none => none
      | some (k, r1) =>
        match skipWs r1 with
        | ':' :: r2 =>
          match parseVal fuel r2 with
          | none => none
          | some (v, r3) =>
            match skipWs r3 with
            | ',' :: r4 => parseMembers fuel r4 (dictSet acc k v)
            | '}' :: r4 => some (.obj (dictSet acc k v), r4)
            | _ => none
        | _ => none
    | _ => none

/-- Parse the inside of an array (the `[` has been consumed). -/
def parseArrStart : Nat → List Char → Option (JVal × List Char)
  | 0, _ => none
  | fuel + 1, s0 =>
    let s := skipWs s0
    match s with
    | ']' :: rest => some (.arr [], rest)
    | _ => parseItems fuel s []

/-- Parse the non-empty item list of an array. -/
def parseItems : Nat → List Char → List JVal → Option (JVal × List Char)
  | 0, _, _ => none
  | fuel + 1, s, acc =>
    match parseVal fuel s with
    | none => none
    | some (v, r) =>
      match skipWs r with
      | ',' :: r2 => parseItems fuel r2 (acc ++ [v])
      | ']' :: r2 => some (.arr (acc ++ [v]), r2)
      | _ => none

end

/-- Python `json.loads`: parse one value and require only whitespace after it.
The fuel is an upper bound on the recursion depth; every recursive call both
consumes fuel and sits behind at least one consumed character, so
`4 * length + 16` never runs out on inputs the parser accepts. -/
def json_loads (s : List Char) : Option JVal :=
  match parseVal (4 * s.length + 16) s with
  | some (v, rest) => if skipWs rest = [] then some v else none
  | none => none


/-! ### The sanitizer `clean_and_parse_json`

Each regex substitution of the source becomes one left-to-right pass; a
substitution continues scanning after the text it just replaced, exactly as
`re.sub` does. -/

/-- One `re.sub(tag + r'\s*', '', s)` pass for a literal `tag`: wherever the
tag occurs, drop it together with the following whitespace run.  The fuel is
the length of the input; every step consumes at least one character. -/
def removeTagWs (tag : List Char) : Nat → List Char → List Char
  | 0, s => s
  | _ + 1, [] => []
  | fuel + 1, c :: rest =>
    if tag.isPrefixOf (c :: rest) then
      removeTagWs tag fuel (((c :: rest).drop tag.length).dropWhile isPySpace)
    else c :: removeTagWs tag fuel rest

/-- Is the character an opening JSON bracket? -/
def isOpenBracket (c : Char) : Bool :=
  c = '[' || c = '{'

/-- Is the character a closing JSON bracket? -/
def isCloseBracket (c : Char) : Bool :=
  c = '}' || c = ']'

/-- Step 2 of the sanitizer: drop everything before the first `[` or `{`;
if there is none, the text is unchanged (the `re.search` fails). -/
def trimBeforeBracket (s : List Char) : List Char :=
  if s.any isOpenBracket then s.dropWhile (fun c => !isOpenBracket c) else s

/-- Step 3 of the sanitizer: keep everything up to and including the last `}`
or `]`; if there is none, the text is unchanged. -/
def trimAfterBracket (s : List Char) : List Char :=
  if s.any isCloseBracket then
    (s.reverse.dropWhile (fun c => !isCloseBracket c)).reverse
  else s

/-- Step 4 of the sanitizer, `re.sub(r',(\s*[}\]])', r'\1', s)`: delete a comma
that is followed by optional whitespace and a closing bracket; scanning
resumes after the bracket. -/
def removeTrailingCommas : Nat → List Char → List Char
  | 0, s => s
  | _ + 1, [] => []
  | fuel + 1, c :: rest =>
    if c = ',' then
      match rest.dropWhile isPySpace with
      | b :: rest2 =>
        if isCloseBracket b then
          rest.takeWhile isPySpace ++ b :: removeTrailingCommas fuel rest2
        else c :: removeTrailingCommas fuel rest
      | [] => c :: removeTrailingCommas fuel rest
    else c :: removeTrailingCommas fuel rest

/-- Step 5a of the sanitizer, `re.sub(r'//.*?\n', '\n', s)`: replace `//`
followed (lazily) by non-newline characters and a newline with that newline;
a `//` with no later newline does not match. -/
def removeLineComments : Nat → List Char → List Char
  | 0, s => s
  | _ + 1, [] => []
  | fuel + 1, c :: rest =>
    if c = '/' ∧ rest.head? = some '/' then
      if (rest.drop 1).any (fun x => x = '\n') then
        '\n' :: removeLineComments fuel (((rest.drop 1).dropWhile (fun x => x ≠ '\n')).drop 1)
      else c :: removeLineComments fuel rest
    else c :: removeLineComments fuel rest

/-- The suffix after the first `*/`, when one exists. -/
def afterBlockClose : List Char → Option (List Char)
  | [] => none
  | '*' :: '/' :: rest => some rest
  | _ :: rest => afterBlockClose rest

/-- Step 5b of the sanitizer, `re.sub(r'/\*.*?\*/', '', s, flags=DOTALL)`:
delete `/*` up to the first following `*/`; an unterminated `/*` does not
match. -/
def removeBlockComments : Nat → List Char → List Char
  | 0, s => s
  | _ + 1, [] => []
  | fuel + 1, c :: rest =>
    if c = '/' ∧ rest.head? = some '*' then
      match afterBlockClose (rest.drop 1) with
      | some rest2 => removeBlockComments fuel rest2
      | none => c :: removeBlockComments fuel rest
    else c :: removeBlockComments fuel rest

/-- Steps 1–6 of `clean_and_parse_json`: the text transformations applied
before the first parse attempt. -/
def cleanup (s : List Char) : List Char :=
  let s1 := removeTagWs "```json".data s.length s
  let s2 := removeTagWs "```".data s1.length s1
  let s3 := trimBeforeBracket s2
  let s4 := trimAfterBracket s3
  let s5 := removeTrailingCommas s4.length s4
  let s6 := removeLineComments s5.length s5
  let s7 := removeBlockComments s6.length s6
  pyStrip s7

/-- Greedy match of the body of the depth-≤2 fallback regex
(`[^{}]*(?:\{[^{}]*\}[^{}]*)*\}` and its bracket twin) starting after the
opening bracket: alternating runs of non-bracket characters and fully closed
inner groups, ended by the closing bracket.  A bracket nested deeper than two
levels makes the whole match fail, as it does for the regex. -/
def matchD2Go (oc cc : Char) : Nat → List Char → Option (List Char × List Char)
  | 0, _ => none
  | fuel + 1, s =>
    let seg := s.takeWhile (fun c => c ≠ oc && c ≠ cc)
    match s.dropWhile (fun c => c ≠ oc && c ≠ cc) with
    | [] => none
    | b :: r =>
      if b = cc then some (seg, r)
      else
        let seg2 := r.takeWhile (fun c => c ≠ oc && c ≠ cc)
        match r.dropWhile (fun c => c ≠ oc && c ≠ cc) with
        | b2 :: r3 =>
          if b2 = cc then
            (matchD2Go oc cc fuel r3).map
              (fun p => (seg ++ b :: seg2 ++ b2 :: p.1, p.2))
          else none
        | [] => none

/-- `re.findall` of the fallback pattern: scan left to right, at each `{` or
`[` try the depth-≤2 match, and on success continue after the match. -/
def findCandidates : Nat → List Char → List (List Char)
  | 0, _ => []
  | _ + 1, [] => []
  | fuel + 1, c :: rest =>
    if c = '{' then
      match matchD2Go '{' '}' (rest.length + 1) rest with
      | some (body, r) => ('{' :: body ++ ['}']) :: findCandidates fuel r
      | none => findCandidates fuel rest
    else if c = '[' then
      match matchD2Go '[' ']' (rest.length + 1) rest with
      | some (body, r) => ('[' :: body ++ [']']) :: findCandidates fuel r
      | none => findCandidates fuel rest
    else findCandidates fuel rest

/-- Try `json.loads` on each fallback candidate, returning the first success. -/
def firstParse : List (List Char) → Option JVal
  | [] => none
  | c :: rest =>
    match json_loads c with
    | some v => some v
    | none => firstParse rest

/-- The sanitizer `clean_and_parse_json` of the source: run the cleanup
passes, try a strict parse, and on failure try the regex-extracted
candidates; `none` models the final `raise ValueError`. -/
def clean_and_parse_json (s : List Char) : Option JVal :=
  let t := cleanup s
  match json_loads t with
  | some v => some v
  | none => firstParse (findCandidates t.length t)


/-! ### The model-fallback invoker `generate_with_fallback`

The external generation call is abstracted by an environment mapping a model
name to its `Outcome`.  The function returns the result together with the
trace of candidates actually invoked, in order. -/

/-- Result of one external generation call for a given model. -/
inductive Outcome where
  | success (text : String)
  | timeout
  | fail (msg : String)
deriving DecidableEq

/-- The response check of the source: `response.text` non-empty and its
stripped length at least 10; anything less raises
`ValueError("Model returned empty or invalid response")`. -/
def respOk (t : String) : Bool :=
  !(t == "") && decide (10 ≤ (pyStrip t.data).length)

/-- The message of the `ValueError` raised for a short or empty response. -/
def emptyRespMsg : String := "Model returned empty or invalid response"

/-- The message of the exception recorded on a per-attempt timeout
(`GENERATION_TIMEOUT` is 45). -/
def timeoutMsg (m : String) : String := "Model " ++ m ++ " timed out after 45s"

/-- The defensive generic message raised when no error was recorded. -/
def allFailedMsg : String := "All models failed to generate content"

/-- The fixed fallback list of model identifiers. -/
def MODEL_FALLBACK_LIST : List String :=
  ["gemini-2.5-flash", "gemini-2.5-flash-lite", "gemini-3-flash"]

/-- `[model_name] if model_name else MODEL_FALLBACK_LIST`. -/
def modelsToTry (pinned : Option String) : List String :=
  match pinned with
  | some m => [m]
  | none => MODEL_FALLBACK_LIST

/-- Does the candidate's outcome count as a failure (timeout, exception, or a
short/empty response)? -/
def outcomeFails (o : Outcome) : Bool :=
  match o with
  | .success t => !respOk t
  | .timeout => true
  | .fail _ => true

/-- The error message the loop records for a failing candidate. -/
def failMsgOf (env : String → Outcome) (m : String) : String :=
  match env m with
  | .success _ => emptyRespMsg
  | .timeout => timeoutMsg m
  | .fail msg => msg

/-- The rate-limit keywords of the source's error classifier. -/
def RATE_LIMIT_KEYWORDS : List String :=
  ["429", "quota", "rate limit", "resource exhausted"]

/-- Is the outcome an exception classified as a rate-limit/quota failure
(case-insensitive substring match on the message)? -/
def isRateLimitFailure (env : String → Outcome) (m : String) : Bool :=
  match env m with
  | .fail msg => RATE_LIMIT_KEYWORDS.any (fun k => strContains (pyLower msg) k)
  | _ => false

/-- The candidate loop of `generate_with_fallback`: try each model in order,
return on the first adequate response, remember the last error, and re-raise
it (or the defensive generic error) when the list is exhausted.  The second
component is the trace of models invoked.  Every classified exception
category continues to the next candidate, so only success stops the loop. -/
def generate_with_fallback (env : String → Outcome) (lastError : Option String) :
    List String → Except String (String × String) × List String
  | [] => (.error (lastError.getD allFailedMsg), [])
  | m :: rest =>
    match env m with
    | .success t =>
      if respOk t then (.ok (t, m), [m])
      else
        let p := generate_with_fallback env (some emptyRespMsg) rest
        (p.1, m :: p.2)
    | .timeout =>
      let p := generate_with_fallback env (some (timeoutMsg m)) rest
      (p.1, m :: p.2)
    | .fail msg =>
      let p := generate_with_fallback env (some msg) rest
      (p.1, m :: p.2)

/-! ### Exam parameters and the request handler's error mapping -/

/-- The parameters derived from `examType`. -/
structure ExamParams where
  numQuestions : Nat
  marksAB : Nat
  marksCD : Nat
  duration : String
deriving DecidableEq

/-- The exam-type lookup at the top of `generate_questions`:
`examType in ["MST-1", "MST-2"]` selects the MST tuple, anything else the
End-Sem tuple. -/
def examParams (examType : String) : ExamParams :=
  if examType = "MST-1" ∨ examType = "MST-2" then
    ⟨2, 3, 4, "1 Hour"⟩
  else
    ⟨5, 4, 6, "3 Hours"⟩

/-- An exception reaching the request handler: either the dedicated
`asyncio.TimeoutError` handler fires, or the generic handler inspects the
message. -/
inductive PipelineException where
  | timeoutError
  | exc (msg : String)

/-- An HTTP error response raised by the handler. -/
structure HTTPErrorResp where
  status : Nat
  detail : String
deriving DecidableEq

/-- The `except` chain at the bottom of `generate_questions`. -/
def handle_pipeline_error : PipelineException → HTTPErrorResp
  | .timeoutError => ⟨504, "Request timed out. Please try again."⟩
  | .exc msg =>
    if strContains msg "429" || strContains (pyLower msg) "quota" then
      ⟨429, "API quota exceeded. Please try again later."⟩
    else if strContains msg "API key" then
      ⟨401, "Invalid API key configuration"⟩
    else
      ⟨500, "Failed to generate questions: " ++ msg⟩

/-! ### The two-phase pipeline of `generate_questions`

Phase-1 is represented by the raw outline text the invoker returned; Phase-2
invoker results are an oracle from (question index, retry index) to the
returned text (`none` models an invoker exception).  A Python exception that
escapes to the handler is an `Except.error`. -/

/-- Exceptions the pipeline body can raise (beyond the invoker's). -/
inductive PErr where
  | parseError
  | keyError
  | typeError
  | zeroDivisionError
deriving DecidableEq

/-- Key `"questionNumber"`. -/
def qnK : List Char := "questionNumber".data

/-- Key `"topic"`. -/
def topicK : List Char := "topic".data

/-- Key `"parts"`. -/
def partsK : List Char := "parts".data

/-- Key `"label"`. -/
def labelK : List Char := "label".data

/-- Key `"text"`. -/
def textK : List Char := "text".data

/-- Key `"marks"`. -/
def marksK : List Char := "marks".data

/-- Key `"hasOR"`. -/
def hasORK : List Char := "hasOR".data

/-- Key `"orText"`. -/
def orTextK : List Char := "orText".data

/-- Python single-quote character. -/
def squote : Char := Char.ofNat 39

/-- Opening brace character. -/
def lbrace : Char := Char.ofNat 123

/-- Closing brace character. -/
def rbrace : Char := Char.ofNat 125

/-- Join rendered elements with `", "`, as Python container repr does. -/
def joinComma : List (List Char) → List Char
  | [] => []
  | [x] => x
  | x :: rest => x ++ ", ".data ++ joinComma rest

/-- Python `str()` of a parsed JSON number: integer lexemes print as the
normalised integer; float lexemes are kept as written (their exact float
formatting is outside the embedding and unused by the claims). -/
def numRender (lex : List Char) : List Char :=
  match lexToInt? lex with
  | some i => intLex i
  | none => lex

mutual

/-- Python `repr()` of a parsed JSON value, as f-string interpolation uses for
elements of containers. -/
def pyRepr : JVal → List Char
  | .null => "None".data
  | .bool true => "True".data
  | .bool false => "False".data
  | .num lex => numRender lex
  | .str s => squote :: s ++ [squote]
  | .arr l => '[' :: joinComma (pyReprList l) ++ [']']
  | .obj f => lbrace :: joinComma (pyReprFields f) ++ [rbrace]

/-- `pyRepr` mapped over a list of values. -/
def pyReprList : List JVal → List (List Char)
  | [] => []
  | v :: rest => pyRepr v :: pyReprList rest

/-- `pyRepr` of each `key: value` entry of an object. -/
def pyReprFields : List (List Char × JVal) → List (List Char)
  | [] => []
  | (k, v) :: rest =>
    (squote :: k ++ [squote] ++ ": ".data ++ pyRepr v) :: pyReprFields rest

end

/-- Python `str()` of a parsed JSON value, as `f"... {topic} ..."` renders the
topic. -/
def pyStrOfJVal : JVal → List Char
  | .str s => s
  | v => pyRepr v

/-- The topic list of the request: `[t.strip() for t in topicHeadings.split(',')]`. -/
def topicsOf (topicHeadings : String) : List (List Char) :=
  (pySplit ',' topicHeadings.data).map pyStrip

/-- The outline-validation step `if not isinstance(outline, list): outline = [outline]`. -/
def asArray (v : JVal) : List JVal :=
  match v with
  | .arr l => l
  | v => [v]

/-- A synthetic outline entry `{"questionNumber": i + 1, "topic": topics[i % len(topics)]}`. -/
def synthOutlineEntry (topics : List (List Char)) (i : Nat) : JVal :=
  JVal.obj [(qnK, JVal.num (natLex (i + 1))),
            (topicK, JVal.str (topics.getD (i % topics.length) []))]

/-- Phase-1 normalisation: wrap a non-array, truncate to `n`, and append
synthetic entries for the missing indices.  (The source's cyclic index
`topics[i % len(topics)]` presumes a non-empty topic list, which the request
always provides.) -/
def normalizeOutline (parsed : JVal) (n : Nat) (topics : List (List Char)) : List JVal :=
  let outline := (asArray parsed).take n
  outline ++ (List.range' outline.length (n - outline.length)).map (synthOutlineEntry topics)

/-- The `questionNumber` field of a question or outline entry. -/
def qnOf (q : JVal) : Option JVal :=
  match q with
  | .obj f => lookupKey f qnK
  | _ => none

/-- The lexeme of a numeric `questionNumber` field (a decidable projection
used to state inequalities between questions). -/
def qnLexOf (q : JVal) : Option (List Char) :=
  match qnOf q with
  | some (.num lex) => some lex
  | _ => none

/-- The value of `q_num` as a Python `int`, when it is one (`bool` is an
`int` subtype in Python, so `True`/`False` index as `1`/`0`). -/
def qnAsInt : JVal → Option Int
  | .num lex => lexToInt? lex
  | .bool true => some 1
  | .bool false => some 0
  | _ => none

/-- Can `q_num < len(outline)` be evaluated without a `TypeError`? -/
def numComparable : JVal → Bool
  | .num _ => true
  | .bool _ => true
  | _ => false

/-- The default argument `topics[(q_num - 1) % len(topics)]` of
`q_outline.get('topic', ...)`.  Python evaluates it eagerly even when the key
is present, so its `TypeError`/`ZeroDivisionError` fire regardless. -/
def topicDefault (qn : JVal) (topics : List (List Char)) : Except PErr JVal :=
  match qnAsInt qn with
  | none => .error .typeError
  | some i =>
    if topics.length = 0 then .error .zeroDivisionError
    else .ok (.str (topics.getD (((i - 1) % (topics.length : Int)).toNat) []))

/-- `topic = q_outline.get('topic', topics[(q_num - 1) % len(topics)])`. -/
def topicOf (fields : List (List Char × JVal)) (qn : JVal) (topics : List (List Char)) :
    Except PErr JVal :=
  match topicDefault qn topics with
  | .error e => .error e
  | .ok d => .ok ((lookupKey fields topicK).getD d)

/-- The deterministic fallback question appended after the third failed
retry, with `marks_ab`/`marks_cd` as Python ints. -/
def fallback_question (qn : JVal) (topic : List Char) (marksAB marksCD : Nat) : JVal :=
  JVal.obj
    [(qnK, qn),
     (partsK, JVal.arr
       [JVal.obj [(labelK, JVal.str "a".data),
                  (textK, JVal.str ("Define ".data ++ topic)),
                  (marksK, JVal.num (natLex marksAB))],
        JVal.obj [(labelK, JVal.str "b".data),
                  (textK, JVal.str ("Explain the key concepts of ".data ++ topic)),
                  (marksK, JVal.num (natLex marksAB))],
        JVal.obj [(labelK, JVal.str "c".data),
                  (textK, JVal.str ("Apply ".data ++ topic ++ " in a real-world scenario".data)),
                  (marksK, JVal.num (natLex marksCD)),
                  (hasORK, JVal.bool true),
                  (orTextK, JVal.str ("Analyze the benefits of ".data ++ topic))]])]

/-- One Phase-2 attempt: invoker text (if any) through the sanitizer, the
`isinstance(dict)` and `'parts' in` checks, then
`question_data['questionNumber'] = q_num`.  `none` is a caught failure. -/
def attemptOnce (text? : Option (List Char)) (qn : JVal) : Option JVal :=
  match text? with
  | none => none
  | some t =>
    match clean_and_parse_json t with
    | none => none
    | some (.obj fields) =>
      if (lookupKey fields partsK).isSome then some (.obj (dictSet fields qnK qn))
      else none
    | some _ => none

/-- The `for retry in range(3)` loop: first successful attempt wins; after
the third failure the fallback question is appended instead. -/
def retryLoop (oracle : Nat → Option (List Char)) (qn : JVal) (fb : JVal) : JVal :=
  match attemptOnce (oracle 0) qn with
  | some q => q
  | none =>
    match attemptOnce (oracle 1) qn with
    | some q => q
    | none =>
      match attemptOnce (oracle 2) qn with
      | some q => q
      | none => fb

/-- Phase 2 for one outline entry: `q_num = q_outline['questionNumber']`
(`KeyError`/`TypeError` when absent or not a dict), the eager topic default,
the retry loop, and the `q_num < len(outline)` pacing comparison whose
`TypeError` discards the whole request. -/
def phase2One (p : ExamParams) (topics : List (List Char))
    (oracle : Nat → Option (List Char)) (entry : JVal) : Except PErr JVal :=
  match entry with
  | .obj fields =>
    match lookupKey fields qnK with
    | none => .error .keyError
    | some qn =>
      match topicOf fields qn topics with
      | .error e => .error e
      | .ok topicV =>
        let q := retryLoop oracle qn
          (fallback_question qn (pyStrOfJVal topicV) p.marksAB p.marksCD)
        if numComparable qn then .ok q else .error .typeError
  | _ => .error .typeError

/-- Phase 2 over the outline, sequentially, numbering the per-question
oracles from the given index. -/
def phase2Go (p : ExamParams) (topics : List (List Char))
    (oracle : Nat → Nat → Option (List Char)) : Nat → List JVal → Except PErr (List JVal)
  | _, [] => .ok []
  | i, e :: rest =>
    match phase2One p topics (oracle i) e with
    | .error err => .error err
    | .ok q =>
      match phase2Go p topics oracle (i + 1) rest with
      | .error err => .error err
      | .ok qs => .ok (q :: qs)

/-- The pipeline of `generate_questions` given the Phase-1 response text and
the Phase-2 oracle: derive parameters and topics, sanitize and normalise the
outline, then run Phase 2; the value is the `questions` list of the response
payload. -/
def buildExam (examType topicHeadings : String) (phase1Text : List Char)
    (oracle : Nat → Nat → Option (List Char)) : Except PErr (List JVal) :=
  let p := examParams examType
  let topics := topicsOf topicHeadings
  match clean_and_parse_json phase1Text with
  | none => .error .parseError
  | some parsed => phase2Go p topics oracle 0 (normalizeOutline parsed p.numQuestions topics)

/-- An outline entry on which Phase 2 cannot raise: an object whose
`questionNumber` is an integer number. -/
def goodEntry : JVal → Bool
  | .obj fields =>
    match lookupKey fields qnK with
    | some (.num lex) => (lexToInt? lex).isSome
    | _ => false
  | _ => false


/-! ### Remaining definitions used by the theorems -/

/-- Projection of a parse result to a string payload (decidable, used to
state that two parse results differ). -/
def strOfOpt : Option JVal → Option (List Char)
  | some (.str s) => some s
  | _ => none

/-- No comma of the text is followed by optional whitespace and a closing
bracket, i.e. the trailing-comma pass of the sanitizer finds no match. -/
def noCommaClose : List Char → Bool
  | [] => true
  | c :: rest =>
    (if c = ',' then
      match rest.dropWhile isPySpace with
      | b :: _ => !isCloseBracket b
      | [] => true
    else true) && noCommaClose rest

/-- A concrete environment in which every model fails: the first two time
out and the last hits a quota error. -/
def c4Env : String → Outcome :=
  fun m => if m = "gemini-3-flash" then .fail "Error 429: quota exceeded" else .timeout

/-- A concrete environment in which the first model is rate limited and the
second returns an adequate response. -/
def c5Env : String → Outcome :=
  fun m =>
    if m = "gemini-2.5-flash-lite" then .success "0123456789 exam JSON"
    else .fail "429 Resource exhausted: rate limit"

/-- The backtick character that opens a markdown fence. -/
def backtick : Char := Char.ofNat 96

/-! ### Helper lemmas -/

/-- `pySplit` never returns an empty list. -/
theorem pySplit_ne_nil (sep : Char) (s : List Char) : pySplit sep s ≠ [] := by
  induction s with
  | nil => simp [pySplit]
  | cons c rest ih =>
    unfold pySplit
    by_cases h : c = sep
    · simp [h]
    · rw [if_neg h]
      cases hp : pySplit sep rest <;> simp

/-- The topic list of a request is never empty. -/
theorem topicsOf_ne_nil (s : String) : topicsOf s ≠ [] := by
  unfold topicsOf
  rw [ne_eq, List.map_eq_nil_iff]
  exact pySplit_ne_nil ',' s.data

/-- Any list is a `isPrefixOf` of itself. -/
theorem isPrefixOf_self (l : List Char) : l.isPrefixOf l = true := by
  rw [List.isPrefixOf_iff_prefix]

/-- A string contains any of its suffixes. -/
theorem strContains_append_right (p m : String) : strContains (p ++ m) m = true := by
  unfold strContains containsSub
  rw [List.any_eq_true]
  refine ⟨p.data.length, ?_, ?_⟩
  · rw [List.mem_range, String.data_append, List.length_append]
    omega
  · rw [String.data_append, List.drop_left]
    exact isPrefixOf_self m.data

/-- Looking up the key just set by `dictSet` yields the new value. -/
theorem lookupKey_dictSet (fields : List (List Char × JVal)) (k : List Char) (v : JVal) :
    lookupKey (dictSet fields k v) k = some v := by
  induction fields with
  | nil => simp [dictSet, lookupKey]
  | cons kv rest ih =>
    obtain ⟨k', v'⟩ := kv
    by_cases h : k' = k
    · simp [dictSet, lookupKey, h]
    · simp [dictSet, lookupKey, h, ih]

/-- A successful Phase-2 attempt yields an object whose `questionNumber` was
forced to `q_num`. -/
theorem attemptOnce_qn (text? : Option (List Char)) (qn q : JVal)
    (h : attemptOnce text? qn = some q) : qnOf q = some qn := by
  cases text? with
  | none => simp [attemptOnce] at h
  | some t =>
    simp only [attemptOnce] at h
    split at h
    · cases h
    · split at h
      · cases h
        simp [qnOf, lookupKey_dictSet]
      · cases h
    · cases h

/-- The fallback question carries the forced `questionNumber`. -/
theorem qnOf_fallback (qn : JVal) (topic : List Char) (a b : Nat) :
    qnOf (fallback_question qn topic a b) = some qn := by
  simp [qnOf, fallback_question, lookupKey]

/-- Whatever the retry loop produces carries the forced `questionNumber`,
provided the fallback does. -/
theorem retryLoop_qn (oracle : Nat → Option (List Char)) (qn fb : JVal)
    (hfb : qnOf fb = some qn) : qnOf (retryLoop oracle qn fb) = some qn := by
  unfold retryLoop
  cases h0 : attemptOnce (oracle 0) qn with
  | some q => exact attemptOnce_qn _ _ _ h0
  | none =>
    cases h1 : attemptOnce (oracle 1) qn with
    | some q => exact attemptOnce_qn _ _ _ h1
    | none =>
      cases h2 : attemptOnce (oracle 2) qn with
      | some q => exact attemptOnce_qn _ _ _ h2
      | none => exact hfb

/-- The normalised outline always has exactly `n` entries. -/
theorem normalizeOutline_length (parsed : JVal) (n : Nat) (topics : List (List Char)) :
    (normalizeOutline parsed n topics).length = n := by
  unfold normalizeOutline
  simp only [List.length_append, List.length_map, List.length_range', List.length_take]
  omega

/-! ### Claim C2 -/

/-- C2: the derived exam parameters are a deterministic function of
`examType` alone: `"MST-1"` and `"MST-2"` map to `(2, 3, 4, "1 Hour")` and
every other string maps to `(5, 4, 6, "3 Hours")`, with no validation
error. -/
theorem C2_examParams_lookup :
    examParams "MST-1" = ⟨2, 3, 4, "1 Hour"⟩ ∧
    examParams "MST-2" = ⟨2, 3, 4, "1 Hour"⟩ ∧
    ∀ s : String, s ≠ "MST-1" → s ≠ "MST-2" →
      examParams s = ⟨5, 4, 6, "3 Hours"⟩ := by
  refine ⟨rfl, rfl, ?_⟩
  intro s h1 h2
  unfold examParams
  rw [if_neg]
  rintro (h | h)
  · exact h1 h
  · exact h2 h

/-- C2 witness: the lookup evaluated at the unrecognised value `"End-Sem"`. -/
theorem C2_examParams_lookup_witness :
    examParams "End-Sem" = ⟨5, 4, 6, "3 Hours"⟩ :=
  C2_examParams_lookup.2.2 "End-Sem" (by decide) (by decide)

/-! ### Claim C10 -/

/-- C10: splitting `topicHeadings` on `','` yields at least one topic for
every request string — even an empty or comma-free one — so every cyclic
index `i % len(topics)` used by the pipeline is strictly below the list
length and the selection never fails. -/
theorem C10_topics_nonempty (s : String) :
    0 < (topicsOf s).length ∧
    ∀ i : Nat, i % (topicsOf s).length < (topicsOf s).length := by
  have hl : 0 < (topicsOf s).length := List.length_pos.mpr (topicsOf_ne_nil s)
  exact ⟨hl, fun i => Nat.mod_lt i hl⟩

/-! ### Claim C7 -/

/-- C7: on the raw model output `"Here is the result:"`, a newline, a
markdown ` ```json ` fence around `[{"a":1},]` (with a trailing comma), a
closing fence and `"Thanks!"`, the sanitizer returns the JSON value
`[{"a":1}]`. -/
theorem C7_sanitizer_scenario :
    clean_and_parse_json
        "Here is the result:\n```json\n[\x7b\"a\":1\x7d,]\n```\nThanks!".data
      = some (JVal.arr [JVal.obj [("a".data, JVal.num ['1'])]]) := by
  rfl

/-! ### Claim C9 -/

/-- C9: every exception reaching the request-handler boundary is mapped to
an HTTP status by inspecting the error: a dedicated `TimeoutError` handler
yields 504, a message containing `"429"` or (case-insensitively) `"quota"`
yields 429, otherwise a message containing `"API key"` yields 401, and any
other failure yields 500 with the error message included in the detail. -/
theorem C9_handler_mapping :
    handle_pipeline_error .timeoutError
      = ⟨504, "Request timed out. Please try again."⟩ ∧
    (∀ msg, (strContains msg "429" || strContains (pyLower msg) "quota") = true →
      handle_pipeline_error (.exc msg)
        = ⟨429, "API quota exceeded. Please try again later."⟩) ∧
    (∀ msg, (strContains msg "429" || strContains (pyLower msg) "quota") = false →
      strContains msg "API key" = true →
      handle_pipeline_error (.exc msg) = ⟨401, "Invalid API key configuration"⟩) ∧
    (∀ msg, (strContains msg "429" || strContains (pyLower msg) "quota") = false →
      strContains msg "API key" = false →
      handle_pipeline_error (.exc msg)
        = ⟨500, "Failed to generate questions: " ++ msg⟩ ∧
      strContains (handle_pipeline_error (.exc msg)).detail msg = true) := by
  refine ⟨rfl, ?_, ?_, ?_⟩
  · intro msg h
    simp [handle_pipeline_error, h]
  · intro msg h1 h2
    simp [handle_pipeline_error, h1, h2]
  · intro msg h1 h2
    constructor
    · simp [handle_pipeline_error, h1, h2]
    · simp only [handle_pipeline_error, h1, h2]
      simp only [Bool.false_eq_true, if_false]
      exact strContains_append_right "Failed to generate questions: " msg

/-- C9 witness: the mapping applied to a quota message, an API-key message
and a generic message. -/
theorem C9_handler_mapping_witness :
    handle_pipeline_error (.exc "You exceeded your current quota")
      = ⟨429, "API quota exceeded. Please try again later."⟩ ∧
    handle_pipeline_error (.exc "API key not valid")
      = ⟨401, "Invalid API key configuration"⟩ ∧
    handle_pipeline_error (.exc "boom")
      = ⟨500, "Failed to generate questions: boom"⟩ :=
  ⟨C9_handler_mapping.2.1 "You exceeded your current quota" (by decide),
   C9_handler_mapping.2.2.1 "API key not valid" (by decide) (by decide),
   (C9_handler_mapping.2.2.2 "boom" (by decide) (by decide)).1⟩

/-! ### Claim C4 -/

/-- C4: whenever every candidate model fails (timeout, short/empty response,
or exception), the invoker raises the last observed error — the
`AllModelsExhaustedError` of the specification — rather than succeeding or
raising an unrelated error.  The list is written `pre ++ [mlast]`, so it is
an arbitrary non-empty candidate list and `mlast` its last element. -/
theorem C4_all_models_exhausted (env : String → Outcome) (lastError : Option String)
    (pre : List String) (mlast : String)
    (hfail : ∀ m ∈ pre ++ [mlast], outcomeFails (env m) = true) :
    (generate_with_fallback env lastError (pre ++ [mlast])).1
      = .error (failMsgOf env mlast) := by
  induction pre generalizing lastError with
  | nil =>
    have hm := hfail mlast (List.mem_append_right [] (List.mem_singleton_self mlast))
    cases henv : env mlast with
    | success t =>
      rw [henv] at hm
      simp only [outcomeFails] at hm
      rw [Bool.not_eq_true'] at hm
      simp [generate_with_fallback, henv, hm, failMsgOf]
    | timeout => simp [generate_with_fallback, henv, failMsgOf]
    | fail msg => simp [generate_with_fallback, henv, failMsgOf]
  | cons x xs ih =>
    have hx := hfail x (List.mem_cons_self x _)
    have hrest : ∀ m ∈ xs ++ [mlast], outcomeFails (env m) = true :=
      fun m hm => hfail m (List.mem_cons_of_mem x hm)
    cases henv : env x with
    | success t =>
      rw [henv] at hx
      simp only [outcomeFails] at hx
      rw [Bool.not_eq_true'] at hx
      simp only [List.cons_append, generate_with_fallback, henv, hx, Bool.false_eq_true,
        if_false]
      exact ih _ hrest
    | timeout =>
      simp only [List.cons_append, generate_with_fallback, henv]
      exact ih _ hrest
    | fail msg =>
      simp only [List.cons_append, generate_with_fallback, henv]
      exact ih _ hrest

/-- C4 witness: the full fallback list with two timeouts and a final quota
error re-raises the quota error. -/
theorem C4_all_models_exhausted_witness :
    (generate_with_fallback c4Env none MODEL_FALLBACK_LIST).1
      = .error "Error 429: quota exceeded" :=
  C4_all_models_exhausted c4Env none ["gemini-2.5-flash", "gemini-2.5-flash-lite"]
    "gemini-3-flash" (by decide)

/-! ### Claim C5 -/

/-- C5: if the first `N` candidates fail with rate-limit errors and
candidate `N + 1` returns text whose stripped length is at least 10, the
invoker returns that text together with the successful model's identifier,
and the trace of invoked candidates is exactly the first `N + 1` — no later
candidate is ever invoked. -/
theorem C5_success_stops (env : String → Outcome) (lastError : Option String)
    (pre : List String) (m : String) (post : List String) (t : String)
    (hpre : ∀ x ∈ pre, isRateLimitFailure env x = true)
    (hm : env m = .success t) (ht : respOk t = true) :
    generate_with_fallback env lastError (pre ++ m :: post)
      = (.ok (t, m), pre ++ [m]) := by
  induction pre generalizing lastError with
  | nil => simp [generate_with_fallback, hm, ht]
  | cons x xs ih =>
    have hx := hpre x (List.mem_cons_self x xs)
    cases henv : env x with
    | success t2 => rw [isRateLimitFailure.eq_def, henv] at hx; simp at hx
    | timeout => rw [isRateLimitFailure.eq_def, henv] at hx; simp at hx
    | fail msg =>
      have h2 := ih (some msg) (fun y hy => hpre y (List.mem_cons_of_mem x hy))
      simp only [List.cons_append, generate_with_fallback, henv, List.append_eq, h2]

/-- C5 witness: with the first model rate-limited and the second adequate,
the invoker returns the second model's text and never reaches the third. -/
theorem C5_success_stops_witness :
    generate_with_fallback c5Env none MODEL_FALLBACK_LIST
      = (.ok ("0123456789 exam JSON", "gemini-2.5-flash-lite"),
         ["gemini-2.5-flash", "gemini-2.5-flash-lite"]) :=
  C5_success_stops c5Env none ["gemini-2.5-flash"] "gemini-2.5-flash-lite"
    ["gemini-3-flash"] "0123456789 exam JSON" (by decide) (by decide) (by decide)

/-! ### Claim C8 -/

/-- C8: for an outline entry (with an integer `questionNumber` and an
explicit topic) whose three Phase-2 attempts all fail, the question emitted
is exactly the deterministic fallback: part a `"Define {topic}"` with
`marksAB`, part b `"Explain the key concepts of {topic}"` with `marksAB`,
part c `"Apply {topic} in a real-world scenario"` with `marksCD`,
`hasOR = true` and `orText = "Analyze the benefits of {topic}"`. -/
theorem C8_phase2_fallback (p : ExamParams) (topics : List (List Char))
    (oracle : Nat → Option (List Char)) (qnLex topic : List Char) (i : Int)
    (hqn : lexToInt? qnLex = some i)
    (htopics : topics ≠ [])
    (hfail : ∀ r, r < 3 → attemptOnce (oracle r) (JVal.num qnLex) = none) :
    phase2One p topics oracle (JVal.obj [(qnK, JVal.num qnLex), (topicK, JVal.str topic)])
      = .ok (JVal.obj
          [(qnK, JVal.num qnLex),
           (partsK, JVal.arr
             [JVal.obj [(labelK, JVal.str "a".data),
                        (textK, JVal.str ("Define ".data ++ topic)),
                        (marksK, JVal.num (natLex p.marksAB))],
              JVal.obj [(labelK, JVal.str "b".data),
                        (textK, JVal.str ("Explain the key concepts of ".data ++ topic)),
                        (marksK, JVal.num (natLex p.marksAB))],
              JVal.obj [(labelK, JVal.str "c".data),
                        (textK, JVal.str ("Apply ".data ++ topic ++ " in a real-world scenario".data)),
                        (marksK, JVal.num (natLex p.marksCD)),
                        (hasORK, JVal.bool true),
                        (orTextK, JVal.str ("Analyze the benefits of ".data ++ topic))]])]) := by
  have hlen : topics.length ≠ 0 := fun h => htopics (List.length_eq_zero.mp h)
  have hl2 : lookupKey [(qnK, JVal.num qnLex), (topicK, JVal.str topic)] qnK
      = some (JVal.num qnLex) := rfl
  have hl : lookupKey [(qnK, JVal.num qnLex), (topicK, JVal.str topic)] topicK
      = some (JVal.str topic) := rfl
  have htop : topicOf [(qnK, JVal.num qnLex), (topicK, JVal.str topic)] (JVal.num qnLex) topics
      = .ok (JVal.str topic) := by
    unfold topicOf topicDefault
    simp only [qnAsInt, hqn, if_neg hlen, hl]
    rfl
  simp only [phase2One, hl2, htop]
  simp only [retryLoop, hfail 0 (by omega), hfail 1 (by omega), hfail 2 (by omega)]
  rfl

/-- C8 witness: a concrete End-Sem entry on topic `"Graphs"` with an oracle
that always fails produces exactly the fallback question. -/
theorem C8_phase2_fallback_witness :
    phase2One ⟨5, 4, 6, "3 Hours"⟩ ["Graphs".data] (fun _ => none)
        (JVal.obj [(qnK, JVal.num ['3']), (topicK, JVal.str "Graphs".data)])
      = .ok (JVal.obj
          [(qnK, JVal.num ['3']),
           (partsK, JVal.arr
             [JVal.obj [(labelK, JVal.str "a".data),
                        (textK, JVal.str "Define Graphs".data),
                        (marksK, JVal.num ['4'])],
              JVal.obj [(labelK, JVal.str "b".data),
                        (textK, JVal.str "Explain the key concepts of Graphs".data),
                        (marksK, JVal.num ['4'])],
              JVal.obj [(labelK, JVal.str "c".data),
                        (textK, JVal.str "Apply Graphs in a real-world scenario".data),
                        (marksK, JVal.num ['6']),
                        (hasORK, JVal.bool true),
                        (orTextK, JVal.str "Analyze the benefits of Graphs".data)]])]) :=
  C8_phase2_fallback ⟨5, 4, 6, "3 Hours"⟩ ["Graphs".data] (fun _ => none) ['3']
    "Graphs".data 3 (by decide) (by decide) (fun r _ => rfl)

/-! ### Claim C1 -/

/-- Phase 2 succeeds on a well-formed outline entry and preserves its
`questionNumber` field. -/
theorem phase2One_good (p : ExamParams) (topics : List (List Char))
    (oracle : Nat → Option (List Char)) (e : JVal)
    (hg : goodEntry e = true) (ht : topics ≠ []) :
    ∃ q, phase2One p topics oracle e = .ok q ∧ qnOf q = qnOf e := by
  have hlen : topics.length ≠ 0 := fun h => ht (List.length_eq_zero.mp h)
  cases e with
  | obj fields =>
    simp only [goodEntry] at hg
    split at hg
    · rename_i lex heq
      obtain ⟨i, hi⟩ := Option.isSome_iff_exists.mp hg
      have htv : topicOf fields (JVal.num lex) topics
          = .ok ((lookupKey fields topicK).getD
              (JVal.str (topics.getD (((i - 1) % (topics.length : Int)).toNat) []))) := by
        unfold topicOf topicDefault
        simp only [qnAsInt, hi, if_neg hlen]
      refine ⟨retryLoop oracle (JVal.num lex)
          (fallback_question (JVal.num lex)
            (pyStrOfJVal ((lookupKey fields topicK).getD
              (JVal.str (topics.getD (((i - 1) % (topics.length : Int)).toNat) []))))
            p.marksAB p.marksCD), ?_, ?_⟩
      · simp only [phase2One, heq, htv]
        rfl
      · rw [retryLoop_qn oracle _ _ (qnOf_fallback _ _ _ _)]
        simp only [qnOf]
        exact heq.symm
    · cases hg
  | null => cases hg
  | bool b => cases hg
  | num lex => cases hg
  | str s => cases hg
  | arr l => cases hg

/-- Phase 2 over a list of well-formed entries returns one question per
entry, preserving each entry's `questionNumber`. -/
theorem phase2Go_good (p : ExamParams) (topics : List (List Char))
    (oracle : Nat → Nat → Option (List Char)) (entries : List JVal) (i : Nat)
    (hg : ∀ e ∈ entries, goodEntry e = true) (ht : topics ≠ []) :
    ∃ qs, phase2Go p topics oracle i entries = .ok qs ∧
      qs.map qnOf = entries.map qnOf := by
  induction entries generalizing i with
  | nil => exact ⟨[], rfl, rfl⟩
  | cons e rest ih =>
    obtain ⟨q, hq, hqn⟩ :=
      phase2One_good p topics (oracle i) e (hg e (List.mem_cons_self e rest)) ht
    obtain ⟨qs, hqs, hmap⟩ := ih (i + 1) (fun x hx => hg x (List.mem_cons_of_mem e hx))
    refine ⟨q :: qs, ?_, ?_⟩
    · simp only [phase2Go, hq, hqs]
    · simp only [List.map_cons, hqn, hmap]

/-- C1 (amended): whenever Phase 1 succeeds and every entry of the
normalised outline is an object carrying an integer `questionNumber` field,
the pipeline returns exactly `numQuestions` questions regardless of how many
Phase-2 attempts fail, and each question's `questionNumber` equals the
`questionNumber` of its outline entry (not necessarily its 1-based
position). -/
theorem C1_pipeline_count (examType topicHeadings : String) (phase1Text : List Char)
    (oracle : Nat → Nat → Option (List Char)) (parsed : JVal)
    (h1 : clean_and_parse_json phase1Text = some parsed)
    (h2 : ∀ e ∈ normalizeOutline parsed (examParams examType).numQuestions
        (topicsOf topicHeadings), goodEntry e = true) :
    Except.map List.length (buildExam examType topicHeadings phase1Text oracle)
      = .ok (examParams examType).numQuestions ∧
    Except.map (List.map qnOf) (buildExam examType topicHeadings phase1Text oracle)
      = .ok ((normalizeOutline parsed (examParams examType).numQuestions
          (topicsOf topicHeadings)).map qnOf) := by
  obtain ⟨qs, hqs, hmap⟩ := phase2Go_good (examParams examType) (topicsOf topicHeadings)
    oracle (normalizeOutline parsed (examParams examType).numQuestions
      (topicsOf topicHeadings)) 0 h2 (topicsOf_ne_nil topicHeadings)
  have hb : buildExam examType topicHeadings phase1Text oracle = .ok qs := by
    unfold buildExam
    rw [h1]
    exact hqs
  constructor
  · rw [hb]
    have hlen := congrArg List.length hmap
    simp only [List.length_map] at hlen
    simp only [Except.map, hlen, normalizeOutline_length]
  · rw [hb]
    simp only [Except.map, hmap]

/-- C1 witness: an empty Phase-1 array for an MST exam, with every Phase-2
attempt failing, still yields exactly 2 questions numbered from their
(synthetic) outline entries. -/
theorem C1_pipeline_count_witness :
    Except.map List.length (buildExam "MST-1" "t" "[]".data (fun _ _ => none))
      = .ok (examParams "MST-1").numQuestions ∧
    Except.map (List.map qnOf) (buildExam "MST-1" "t" "[]".data (fun _ _ => none))
      = .ok ((normalizeOutline (JVal.arr []) (examParams "MST-1").numQuestions
          (topicsOf "t")).map qnOf) :=
  C1_pipeline_count "MST-1" "t" "[]".data (fun _ _ => none) (JVal.arr []) rfl (by decide)

/-- C1 counterexample: Phase 1 succeeds with the outline
`[{"questionNumber": 7, "topic": "t"}]` for an MST-1 request, yet the first
returned question carries `questionNumber` 7, not its 1-based position 1 —
the model-supplied outline number is copied verbatim. -/
theorem C1_counterexample :
    (clean_and_parse_json
        "[\x7b\"questionNumber\": 7, \"topic\": \"t\"\x7d]".data).isSome = true ∧
    Except.map (List.map qnLexOf)
        (buildExam "MST-1" "t" "[\x7b\"questionNumber\": 7, \"topic\": \"t\"\x7d]".data
          (fun _ _ => none))
      = .ok [some ['7'], some ['2']] ∧
    (some ['7'] : Option (List Char)) ≠ some ['1'] := by
  exact ⟨rfl, rfl, by decide⟩

/-! ### Claim C3 -/

/-- C3 counterexample: a Phase-1 parse result that is a single (non-array)
object with `questionNumber` 7, normalised for 2 required questions, keeps
that 7 in front of the synthetic entry numbered 2 — the final outline's
numbering is `[7, 2]`, not the contiguous `[1, 2]` the claim asserts. -/
theorem C3_counterexample :
    List.map qnLexOf (normalizeOutline (JVal.obj [(qnK, JVal.num ['7'])]) 2 [['t']])
      = [some ['7'], some ['2']] ∧
    List.map qnLexOf (normalizeOutline (JVal.obj [(qnK, JVal.num ['7'])]) 2 [['t']])
      ≠ [some ['1'], some ['2']] := by
  exact ⟨rfl, by decide⟩

/-- C3 (amended): the normalisation wraps a non-array result, truncates to
`numQuestions`, and pads with synthetic entries, so the final outline always
has exactly `numQuestions` entries; the retained entries are the parsed ones
unchanged, and each appended synthetic entry at index `i` is exactly
`{questionNumber: i+1, topic: topics[i % len(topics)]}` — so the synthetic
tail is contiguously numbered by position, while retained model entries keep
whatever numbering they had. -/
theorem C3_normalize_outline (parsed : JVal) (n : Nat) (topics : List (List Char))
    (_ht : topics ≠ []) :
    (normalizeOutline parsed n topics).length = n ∧
    (∀ i, i < (asArray parsed).length → i < n →
      (normalizeOutline parsed n topics).getD i JVal.null
        = (asArray parsed).getD i JVal.null) ∧
    (∀ i, (asArray parsed).length ≤ i → i < n →
      (normalizeOutline parsed n topics).getD i JVal.null
        = JVal.obj [(qnK, JVal.num (natLex (i + 1))),
                    (topicK, JVal.str (topics.getD (i % topics.length) []))]) := by
  refine ⟨normalizeOutline_length parsed n topics, ?_, ?_⟩
  · intro i h1 h2
    unfold normalizeOutline
    have hlt : i < ((asArray parsed).take n).length := by
      rw [List.length_take]; omega
    rw [List.getD_append _ _ _ _ hlt]
    rw [List.getD_eq_getElem _ _ hlt, List.getD_eq_getElem _ _ h1]
    simp [List.getElem_take]
  · intro i h1 h2
    unfold normalizeOutline
    have hlen1 : ((asArray parsed).take n).length = min n (asArray parsed).length :=
      List.length_take n (asArray parsed)
    have hge : ((asArray parsed).take n).length ≤ i := by omega
    rw [List.getD_append_right _ _ _ _ hge]
    have hlt2 : i - ((asArray parsed).take n).length
        < ((List.range' ((asArray parsed).take n).length
            (n - ((asArray parsed).take n).length)).map (synthOutlineEntry topics)).length := by
      rw [List.length_map, List.length_range']; omega
    rw [List.getD_eq_getElem _ _ hlt2, List.getElem_map, List.getElem_range']
    have hidx : ((asArray parsed).take n).length
        + 1 * (i - ((asArray parsed).take n).length) = i := by
      rw [List.length_take]
      omega
    rw [hidx]
    rfl

/-- C3 witness: one retained entry and two appended synthetic entries, the
synthetic ones numbered 2 and 3 with cyclic topics. -/
theorem C3_normalize_outline_witness :
    (normalizeOutline (JVal.arr [JVal.str "x".data]) 3 [['p'], ['q']]).length = 3 ∧
    (normalizeOutline (JVal.arr [JVal.str "x".data]) 3 [['p'], ['q']]).getD 0 JVal.null
      = JVal.str "x".data ∧
    (normalizeOutline (JVal.arr [JVal.str "x".data]) 3 [['p'], ['q']]).getD 2 JVal.null
      = JVal.obj [(qnK, JVal.num ['3']), (topicK, JVal.str ['p'])] :=
  ⟨(C3_normalize_outline (JVal.arr [JVal.str "x".data]) 3 [['p'], ['q']] (by decide)).1,
   ((C3_normalize_outline (JVal.arr [JVal.str "x".data]) 3 [['p'], ['q']]
      (by decide)).2.1 0 (by decide) (by decide)).trans rfl,
   ((C3_normalize_outline (JVal.arr [JVal.str "x".data]) 3 [['p'], ['q']]
      (by decide)).2.2 2 (by decide) (by decide)).trans rfl⟩

/-! ### Claim C6 -/

/-- A fence-removal pass whose tag starts with a character the text never
contains is the identity. -/
theorem removeTagWs_id (c0 : Char) (tagrest : List Char) (fuel : Nat) (s : List Char)
    (h : ∀ c ∈ s, c ≠ c0) : removeTagWs (c0 :: tagrest) fuel s = s := by
  induction fuel generalizing s with
  | zero => rfl
  | succ fuel ih =>
    cases s with
    | nil => rfl
    | cons c rest =>
      simp only [removeTagWs]
      rw [if_neg, ih rest (fun x hx => h x (List.mem_cons_of_mem c hx))]
      intro hp
      rw [List.isPrefixOf_cons₂, Bool.and_eq_true] at hp
      exact h c (List.mem_cons_self c rest) (beq_iff_eq.mp hp.1).symm

/-- Trimming before the first opening bracket is the identity when the text
starts with one. -/
theorem trimBeforeBracket_id (c : Char) (rest : List Char) (h : isOpenBracket c = true) :
    trimBeforeBracket (c :: rest) = c :: rest := by
  have hany : (c :: rest).any isOpenBracket = true := by simp [h]
  unfold trimBeforeBracket
  rw [if_pos hany, List.dropWhile_cons]
  simp [h]

/-- Trimming after the last closing bracket is the identity when the text
ends with one. -/
theorem trimAfterBracket_id (s : List Char) (c : Char) (h : isCloseBracket c = true) :
    trimAfterBracket (s ++ [c]) = s ++ [c] := by
  have hany : (s ++ [c]).any isCloseBracket = true := by simp [h]
  unfold trimAfterBracket
  rw [if_pos hany, List.reverse_append]
  simp [List.dropWhile_cons, h]

/-- The trailing-comma pass is the identity when no comma is followed by
whitespace and a closing bracket. -/
theorem removeTrailingCommas_id (fuel : Nat) (s : List Char)
    (h : noCommaClose s = true) : removeTrailingCommas fuel s = s := by
  induction fuel generalizing s with
  | zero => rfl
  | succ fuel ih =>
    cases s with
    | nil => rfl
    | cons c rest =>
      simp only [noCommaClose, Bool.and_eq_true] at h
      obtain ⟨h1, h2⟩ := h
      simp only [removeTrailingCommas]
      by_cases hc : c = ','
      · rw [if_pos hc] at h1
        rw [if_pos hc]
        cases hd : rest.dropWhile isPySpace with
        | nil => rw [ih rest h2]
        | cons b rest2 =>
          rw [hd] at h1
          rw [Bool.not_eq_true'] at h1
          simp only [h1, Bool.false_eq_true, if_false]
          rw [ih rest h2]
      · rw [if_neg hc, ih rest h2]

/-- The line-comment pass is the identity on slash-free text. -/
theorem removeLineComments_id (fuel : Nat) (s : List Char)
    (h : ∀ c ∈ s, c ≠ '/') : removeLineComments fuel s = s := by
  induction fuel generalizing s with
  | zero => rfl
  | succ fuel ih =>
    cases s with
    | nil => rfl
    | cons c rest =>
      simp only [removeLineComments]
      rw [if_neg, ih rest (fun x hx => h x (List.mem_cons_of_mem c hx))]
      intro hp
      exact h c (List.mem_cons_self c rest) hp.1

/-- The block-comment pass is the identity on slash-free text. -/
theorem removeBlockComments_id (fuel : Nat) (s : List Char)
    (h : ∀ c ∈ s, c ≠ '/') : removeBlockComments fuel s = s := by
  induction fuel generalizing s with
  | zero => rfl
  | succ fuel ih =>
    cases s with
    | nil => rfl
    | cons c rest =>
      simp only [removeBlockComments]
      rw [if_neg, ih rest (fun x hx => h x (List.mem_cons_of_mem c hx))]
      intro hp
      exact h c (List.mem_cons_self c rest) hp.1

/-- Stripping is the identity when neither end is whitespace. -/
theorem pyStrip_id (a : Char) (mid : List Char) (b : Char)
    (ha : isPySpace a = false) (hb : isPySpace b = false) :
    pyStrip (a :: mid ++ [b]) = a :: mid ++ [b] := by
  unfold pyStrip
  rw [List.cons_append, List.dropWhile_cons]
  simp only [ha, Bool.false_eq_true, if_false]
  rw [← List.cons_append, List.reverse_append]
  simp [List.dropWhile_cons, hb]

/-- An opening bracket is not whitespace. -/
theorem isOpenBracket_not_space (c : Char) (h : isOpenBracket c = true) :
    isPySpace c = false := by
  rw [isOpenBracket, Bool.or_eq_true, decide_eq_true_eq, decide_eq_true_eq] at h
  rcases h with h | h <;> subst h <;> rfl

/-- A closing bracket is not whitespace. -/
theorem isCloseBracket_not_space (c : Char) (h : isCloseBracket c = true) :
    isPySpace c = false := by
  rw [isCloseBracket, Bool.or_eq_true, decide_eq_true_eq, decide_eq_true_eq] at h
  rcases h with h | h <;> subst h <;> rfl

/-- C6 (amended): the sanitizer is idempotent on already-clean JSON text of
the shape loose model output takes — text that starts with an opening
bracket, ends with a closing bracket, contains no backtick and no slash, and
has no comma followed by whitespace and a closing bracket inside a string
literal: on such input `clean_and_parse_json` returns exactly the strict
`json.loads` value.  (On general clean JSON the cleanup passes can rewrite
string contents, as the counterexample shows, so the unrestricted claim
fails.) -/
theorem C6_sanitizer_idempotent (o : Char) (mid : List Char) (c : Char) (v : JVal)
    (ho : isOpenBracket o = true) (hc : isCloseBracket c = true)
    (hnb : ∀ x ∈ o :: mid ++ [c], x ≠ backtick ∧ x ≠ '/')
    (hcc : noCommaClose (o :: mid ++ [c]) = true)
    (hparse : json_loads (o :: mid ++ [c]) = some v) :
    clean_and_parse_json (o :: mid ++ [c]) = some v := by
  have hslash : ∀ x ∈ o :: mid ++ [c], x ≠ '/' := fun x hx => (hnb x hx).2
  have htick : ∀ x ∈ o :: mid ++ [c], x ≠ backtick := fun x hx => (hnb x hx).1
  have e1 : removeTagWs "```json".data (o :: mid ++ [c]).length (o :: mid ++ [c])
      = o :: mid ++ [c] :=
    removeTagWs_id backtick ("``json".data) _ _ htick
  have e2 : removeTagWs "```".data (o :: mid ++ [c]).length (o :: mid ++ [c])
      = o :: mid ++ [c] :=
    removeTagWs_id backtick ("``".data) _ _ htick
  have e3 : trimBeforeBracket (o :: mid ++ [c]) = o :: mid ++ [c] :=
    trimBeforeBracket_id o (mid ++ [c]) ho
  have e4 : trimAfterBracket (o :: mid ++ [c]) = o :: mid ++ [c] :=
    trimAfterBracket_id (o :: mid) c hc
  have e5 : removeTrailingCommas (o :: mid ++ [c]).length (o :: mid ++ [c])
      = o :: mid ++ [c] :=
    removeTrailingCommas_id _ _ hcc
  have e6 : removeLineComments (o :: mid ++ [c]).length (o :: mid ++ [c])
      = o :: mid ++ [c] :=
    removeLineComments_id _ _ hslash
  have e7 : removeBlockComments (o :: mid ++ [c]).length (o :: mid ++ [c])
      = o :: mid ++ [c] :=
    removeBlockComments_id _ _ hslash
  have e8 : pyStrip (o :: mid ++ [c]) = o :: mid ++ [c] :=
    pyStrip_id o mid c (isOpenBracket_not_space o ho) (isCloseBracket_not_space c hc)
  have hclean : cleanup (o :: mid ++ [c]) = o :: mid ++ [c] := by
    simp only [cleanup, e1, e2, e3, e4, e5, e6, e7, e8]
  simp only [clean_and_parse_json, hclean, hparse]

/-- C6 witness: the sanitizer applied to the clean JSON text `[1]`. -/
theorem C6_sanitizer_idempotent_witness :
    clean_and_parse_json ('[' :: ['1'] ++ [']']) = some (JVal.arr [JVal.num ['1']]) :=
  C6_sanitizer_idempotent '[' ['1'] ']' (JVal.arr [JVal.num ['1']]) rfl rfl
    (by decide) (by decide) rfl

/-- C6 counterexample: the string literal `"a/*b*/c"` is strictly parseable
JSON (its value is the string `a/*b*/c`), but the sanitizer's comment pass
rewrites it and returns the different string `ac` — the cleanup steps do
alter the parsed value of this clean input. -/
theorem C6_counterexample :
    json_loads "\"a/*b*/c\"".data = some (JVal.str "a/*b*/c".data) ∧
    clean_and_parse_json "\"a/*b*/c\"".data = some (JVal.str "ac".data) ∧
    clean_and_parse_json "\"a/*b*/c\"".data ≠ json_loads "\"a/*b*/c\"".data := by
  refine ⟨rfl, rfl, ?_⟩
  intro h
  exact absurd (congrArg strOfOpt h) (by decide)

/-- C10 witness: the empty request string still yields one topic, and the
cyclic index 5 stays in range. -/
theorem C10_topics_nonempty_witness :
    0 < (topicsOf "").length ∧ 5 % (topicsOf "").length < (topicsOf "").length :=
  ⟨(C10_topics_nonempty "").1, (C10_topics_nonempty "").2 5⟩
